import Mathlib

/-!
Verification of the geomagnetic-storm dashboard's data-normalization and
classification layer (`src/geomagnetic_dashboard.py`), shallowly embedded in
Lean 4.  Python floats are modelled as rationals (`ℚ`), timezone-aware
timestamps as a UTC epoch value (in seconds) together with a display offset,
pandas field parsing with errors="coerce" as `Option`-valued fields (`none`
models NaT/NaN, removed by `dropna`), and the whole-feed try/except wrapper
as an `Except`-style input to each normalizer.
-/

namespace Geomag

/-! ## SeverityClassifier: `get_kp_level_color` (source lines 10-22) -/

/-- Embedding of `get_kp_level_color(kp)`: the branch cascade
`kp <= 4`, `kp == 5`, `kp == 6`, `kp == 7`, `kp == 8`, else. -/
def get_kp_level_color (kp : ℚ) : String :=
  if kp ≤ 4 then "🟩 G0 (Quiet)"
  else if kp = 5 then "🟨 G1 (Minor)"
  else if kp = 6 then "🟧 G2 (Moderate)"
  else if kp = 7 then "🔴 G3 (Strong)"
  else if kp = 8 then "🔴 G4 (Severe)"
  else "🔴 G5 (Extreme)"

/-- Severity rank of a classifier label: Quiet = 0 up through Extreme = 5.
Spec-side reading of the tier named inside the label emitted by
`get_kp_level_color`. -/
def tierRank (s : String) : ℕ :=
  if s = "🟩 G0 (Quiet)" then 0
  else if s = "🟨 G1 (Minor)" then 1
  else if s = "🟧 G2 (Moderate)" then 2
  else if s = "🔴 G3 (Strong)" then 3
  else if s = "🔴 G4 (Severe)" then 4
  else 5

/-- The six labels the classifier can emit. -/
def kpLabels : List String :=
  ["🟩 G0 (Quiet)", "🟨 G1 (Minor)", "🟧 G2 (Moderate)",
   "🔴 G3 (Strong)", "🔴 G4 (Severe)", "🔴 G5 (Extreme)"]

/-! ## TimeContext: `next_forecast_block` (source lines 31-38) -/

/-- A Python `datetime`, split into a calendar-day index and time-of-day
fields; `day` absorbs year/month/day so that `timedelta(days=1)` is `day + 1`. -/
structure PyDateTime where
  day : ℤ
  hour : ℕ
  minute : ℕ
  second : ℕ
  microsecond : ℕ
deriving DecidableEq, Repr

/-- Field ranges a real `datetime` satisfies. -/
def PyDateTime.Valid (t : PyDateTime) : Prop :=
  t.hour < 24 ∧ t.minute < 60 ∧ t.second < 60 ∧ t.microsecond < 1000000

instance (t : PyDateTime) : Decidable t.Valid := by
  unfold PyDateTime.Valid; infer_instance

/-- Total microseconds on the timeline; datetime comparison and subtraction
agree with this measure. -/
def PyDateTime.toMicros (t : PyDateTime) : ℤ :=
  (((t.day * 24 + (t.hour : ℤ)) * 60 + (t.minute : ℤ)) * 60 + (t.second : ℤ)) * 1000000
    + (t.microsecond : ℤ)

/-- Embedding of `next_forecast_block(now_time)` (source lines 31-38):
`next_hour = ((now_time.hour // 3) + 1) * 3`, truncate to the hour, and
either set the hour or roll to hour 0 of the next day. -/
def next_forecast_block (now_time : PyDateTime) : PyDateTime :=
  let next_hour := (now_time.hour / 3 + 1) * 3
  let next_block_time : PyDateTime :=
    { now_time with minute := 0, second := 0, microsecond := 0 }
  if next_hour < 24 then
    { next_block_time with hour := next_hour }
  else
    { next_block_time with day := next_block_time.day + 1, hour := 0 }

/-! ## Timezone handling (source lines 25-28, 53, 70, 86) -/

/-- The two selectable display zones (source line 26). -/
inductive Zone | IST | UTC
deriving DecidableEq, Repr

/-- Display offset in minutes: IST is UTC+5:30 (source line 28). -/
def Zone.offsetMinutes : Zone → ℤ
  | .IST => 330
  | .UTC => 0

/-- A timezone-aware timestamp as pandas stores it: the absolute UTC epoch
instant (here in seconds) plus the attached display offset.  Wall-clock
fields are derived as `utc + 60 * offsetMinutes`. -/
structure ZonedInstant where
  utc : ℤ
  offsetMinutes : ℤ
deriving DecidableEq, Repr

/-- `dt.tz_localize("UTC")` on a naive parsed instant. -/
def tz_localize_utc (t : ℤ) : ZonedInstant := ⟨t, 0⟩

/-- `dt.tz_convert(tz)`: changes the display offset, never the instant. -/
def tz_convert (tz : Zone) (x : ZonedInstant) : ZonedInstant :=
  ⟨x.utc, tz.offsetMinutes⟩

/-- Convert a zoned timestamp back to its underlying UTC instant. -/
def ZonedInstant.toUTC (x : ZonedInstant) : ℤ := x.utc

/-! ## Fetch-and-normalize routines (source lines 46-94) -/

/-- Input to a normalizer: either the decoded feed payload, or the exception
raised anywhere inside the `try` block (transport failure, non-2xx status,
malformed JSON, or a structural error while reshaping the frame). -/
inductive FetchInput (α : Type) where
  | ok (data : α)
  | error (e : String)

/-- A record of the 1-minute planetary K-index feed after pandas coercion:
a field is `none` when `pd.to_datetime` / `pd.to_numeric` with
errors="coerce" produced NaT/NaN for it. -/
structure RawKpRecord where
  time_tag : Option ℤ
  kp_index : Option ℚ
deriving DecidableEq, Repr

/-- A normalized Kp reading (a row surviving `dropna`). -/
structure KpRow where
  time_tag : ZonedInstant
  kp_index : ℚ
deriving DecidableEq, Repr

/-- Embedding of `fetch_kp_index` (source lines 46-58): localize each parsed
`time_tag` to UTC, convert to the display zone, drop rows where either field
failed to coerce; on any exception, warn and return an empty frame. -/
def fetch_kp_index (tz : Zone) (input : FetchInput (List RawKpRecord)) :
    Option String × List KpRow :=
  match input with
  | .ok data =>
      (none,
        data.filterMap fun r =>
          match r.time_tag, r.kp_index with
          | some t, some k => some ⟨tz_convert tz (tz_localize_utc t), k⟩
          | _, _ => none)
  | .error e => (some ("Kp index fetch failed: " ++ e), [])

/-- A record of the alerts feed after column selection and coercion of
`issue_datetime`. -/
structure RawAlertRecord where
  issue_datetime : Option ℤ
  product_id : String
  message : String
deriving DecidableEq, Repr

/-- A normalized alert row (columns renamed to Issue Time / Alert Type /
Message in the source). -/
structure AlertRow where
  issue_time : ZonedInstant
  alert_type : String
  message : String
deriving DecidableEq, Repr

/-- Embedding of `fetch_alerts` (source lines 61-74): keep the three columns,
localize/convert the issue time, drop rows whose issue time failed to
coerce; on any exception, warn and return an empty frame. -/
def fetch_alerts (tz : Zone) (input : FetchInput (List RawAlertRecord)) :
    Option String × List AlertRow :=
  match input with
  | .ok data =>
      (none,
        data.filterMap fun r =>
          match r.issue_datetime with
          | some t => some ⟨tz_convert tz (tz_localize_utc t), r.product_id, r.message⟩
          | none => none)
  | .error e => (some ("Alerts fetch failed: " ++ e), [])

/-- Python `int()` truncates toward zero. -/
def pyInt (q : ℚ) : ℤ := if 0 ≤ q then ⌊q⌋ else ⌈q⌉

/-- Embedding of the storm annotation lambda (source line 90):
`f"G..."` interpolating `min(int(k) - 4, 5)`. -/
def g_level (k : ℚ) : String := "G" ++ toString (min (pyInt k - 4) 5)

/-- A record of the tabular planetary K-index feed, after the header row is
consumed and the `time_tag` / `Kp` columns are coerced. -/
structure RawStormRecord where
  time_tag : Option ℤ
  Kp : Option ℚ
deriving DecidableEq, Repr

/-- A normalized storm-event row with its G-level annotation. -/
structure StormRow where
  time_tag : ZonedInstant
  Kp : ℚ
  g_level : String
deriving DecidableEq, Repr

/-- Stable insertion step of a descending sort by an integer key. -/
def insertDescBy {α : Type} (key : α → ℤ) (a : α) : List α → List α
  | [] => [a]
  | b :: l => if key b ≤ key a then a :: b :: l else b :: insertDescBy key a l

/-- Descending sort by key, modelling `sort_values(..., ascending=False)`. -/
def sortDescBy {α : Type} (key : α → ℤ) : List α → List α
  | [] => []
  | a :: l => insertDescBy key a (sortDescBy key l)

/-- Embedding of `fetch_geomag_activity` (source lines 77-94).  The header
manipulation (`df.columns = df.iloc[0]; df = df.iloc[1:]`) is absorbed into
the decoding step, so `data` holds the records below the header row; the
`.error` case covers any exception inside the `try` block, including
structural errors while reshaping.  Coerce both columns, drop failed rows,
filter to `Kp >= 5`, annotate with the G-level lambda, sort descending by
`time_tag`. -/
def fetch_geomag_activity (tz : Zone) (input : FetchInput (List RawStormRecord)) :
    Option String × List StormRow :=
  match input with
  | .ok data =>
      let parsed := data.filterMap fun r =>
        match r.time_tag, r.Kp with
        | some t, some k => some (tz_convert tz (tz_localize_utc t), k)
        | _, _ => none
      let storms := parsed.filter fun r => 5 ≤ r.2
      let annotated := storms.map fun r => StormRow.mk r.1 r.2 (g_level r.2)
      (none, sortDescBy (fun s => s.time_tag.utc) annotated)
  | .error e => (some ("Storm data fetch failed: " ++ e), [])

/-- The three independent fetches of source lines 97-99, bundled. -/
def fetch_all (tz : Zone) (i1 : FetchInput (List RawKpRecord))
    (i2 : FetchInput (List RawAlertRecord)) (i3 : FetchInput (List RawStormRecord)) :
    (Option String × List KpRow) × (Option String × List AlertRow) ×
      (Option String × List StormRow) :=
  (fetch_kp_index tz i1, fetch_alerts tz i2, fetch_geomag_activity tz i3)

/-- Display selection for alerts (source line 142):
`sort_values("Issue Time", ascending=False).head(5)`. -/
def alerts_display (rows : List AlertRow) : List AlertRow :=
  (sortDescBy (fun a => a.issue_time.utc) rows).take 5

/-! ## Kp block view: trailing 24 h, 3-hour buckets (source lines 108-109) -/

/-- Trailing-24h filter (source line 108):
`kp_df[kp_df["time_tag"] > now - timedelta(hours=24)]`; tz-aware timestamps
compare by their underlying instant. -/
def kp_recent (kp_df : List KpRow) (now : ZonedInstant) : List KpRow :=
  kp_df.filter fun r => decide (now.utc - 24 * 3600 < r.time_tag.utc)

/-- Start of the 3-hour resampling bin containing epoch second `t`; bins are
anchored at midnight (pandas' default origin). -/
def binStart (t : ℤ) : ℤ := (t / 10800) * 10800

/-- The readings of `rows` falling in the bin starting at `b`. -/
def bucketRows (rows : List KpRow) (b : ℤ) : List KpRow :=
  rows.filter fun r => decide (binStart r.time_tag.utc = b)

/-- Mean Kp of a bin; `none` models the NaN an empty resampling bin gets. -/
def bucketMean (rows : List KpRow) (b : ℤ) : Option ℚ :=
  let g := bucketRows rows b
  if g.isEmpty then none
  else some ((g.map fun r => r.kp_index).sum / (g.length : ℚ))

/-- The consecutive 3-hour bin starts spanning the data, from the bin of the
earliest timestamp to the bin of the latest — `resample("3H")` emits every
bin in between, empty ones included. -/
def resampleBins (rows : List KpRow) : List ℤ :=
  match rows.map fun r => binStart r.time_tag.utc with
  | [] => []
  | t :: ts =>
      let lo := ts.foldr min t
      let hi := ts.foldr max t
      (List.range (((hi - lo) / 10800).toNat + 1)).map fun i => lo + 10800 * i

/-- `resample("3H").mean()`: one (bin start, mean) pair per bin. -/
def resample3hMean (rows : List KpRow) : List (ℤ × Option ℚ) :=
  (resampleBins rows).map fun b => (b, bucketMean rows b)

/-- Last `n` elements, modelling `DataFrame.tail(n)`. -/
def tailN {α : Type} (n : ℕ) (l : List α) : List α := l.drop (l.length - n)

/-- Embedding of `kp_hourly` (source line 109):
`kp_recent.set_index("time_tag").resample("3H").mean().reset_index().tail(8)`. -/
def kp_hourly (kp_df : List KpRow) (now : ZonedInstant) : List (ℤ × Option ℚ) :=
  tailN 8 (resample3hMean (kp_recent kp_df now))

/-! ## Theorems -/

/-- For an integer kp at most 9, the severity rank of the classifier's label
is `max (kp - 4) 0`. -/
theorem tierRank_intCast (n : ℤ) (h : n ≤ 9) :
    tierRank (get_kp_level_color (n : ℚ)) = (max (n - 4) 0).toNat := by
  rcases le_or_lt n 4 with h4 | h4
  · have : (n : ℚ) ≤ 4 := by exact_mod_cast h4
    rw [get_kp_level_color, if_pos this]
    have : (max (n - 4) 0).toNat = 0 := by omega
    rw [this, tierRank, if_pos rfl]
  · interval_cases n <;> (norm_num [get_kp_level_color, tierRank]; decide)

/-- C10: `get_kp_level_color` ends in a catch-all branch: every kp strictly
greater than 4 that is not exactly 5, 6, 7 or 8 — for example 4.5 or 5.5 —
receives the "G5 (Extreme)" label. -/
theorem C10_catch_all (kp : ℚ) (h4 : 4 < kp) (h5 : kp ≠ 5) (h6 : kp ≠ 6)
    (h7 : kp ≠ 7) (h8 : kp ≠ 8) : get_kp_level_color kp = "🔴 G5 (Extreme)" := by
  rw [get_kp_level_color, if_neg (not_le.mpr h4), if_neg h5, if_neg h6,
    if_neg h7, if_neg h8]

theorem C10_catch_all_witness :
    4 < (9/2 : ℚ) ∧ get_kp_level_color (9/2) = "🔴 G5 (Extreme)" :=
  ⟨by norm_num,
   C10_catch_all (9/2) (by norm_num) (by norm_num) (by norm_num) (by norm_num)
     (by norm_num)⟩

/-- C1 as stated is false: kp₁ = 4.5 ≤ kp₂ = 5 ≤ 9, yet kp₁ falls through to
the Extreme catch-all (rank 5) while kp₂ is classified Minor (rank 1). -/
theorem C1_counterexample :
    (9/2 : ℚ) ≤ 5 ∧ (5 : ℚ) ≤ 9 ∧
      ¬ tierRank (get_kp_level_color (9/2)) ≤ tierRank (get_kp_level_color 5) := by
  refine ⟨by norm_num, by norm_num, ?_⟩
  have h1 : get_kp_level_color (9/2) = "🔴 G5 (Extreme)" := by
    norm_num [get_kp_level_color]
  have h2 : get_kp_level_color 5 = "🟨 G1 (Minor)" := by
    norm_num [get_kp_level_color]
  rw [h1, h2]
  decide

/-- C1 (amended): the classifier is total — every kp receives one of the six
table labels, in particular every kp ≤ 9 — and its severity tier is
monotonically non-decreasing across the table boundaries for integer kp
values: for all integers kp₁ ≤ kp₂ ≤ 9, the tier of kp₁ is not more severe
than the tier of kp₂.  (For fractional kp the catch-all branch breaks
monotonicity, see the counterexample.) -/
theorem C1_total_monotone :
    (∀ kp : ℚ, kp ≤ 9 → get_kp_level_color kp ∈ kpLabels) ∧
    (∀ m n : ℤ, m ≤ n → n ≤ 9 →
      tierRank (get_kp_level_color (m : ℚ)) ≤ tierRank (get_kp_level_color (n : ℚ))) := by
  constructor
  · intro kp _
    rw [get_kp_level_color]
    split_ifs <;> simp [kpLabels]
  · intro m n hmn h9
    rw [tierRank_intCast m (le_trans hmn h9), tierRank_intCast n h9]
    omega

theorem C1_total_monotone_witness :
    get_kp_level_color 0 ∈ kpLabels ∧
      tierRank (get_kp_level_color ((5 : ℤ) : ℚ)) ≤
        tierRank (get_kp_level_color ((6 : ℤ) : ℚ)) :=
  ⟨C1_total_monotone.1 0 (by norm_num),
   C1_total_monotone.2 5 6 (by norm_num) (by norm_num)⟩

/-- C2: for every valid instant, `next_forecast_block` yields a 3-hour-aligned
boundary (hour a multiple of 3, below 24) with minutes, seconds and
microseconds zeroed, strictly after `now` (so the countdown is strictly
positive); on an exact boundary it advances a full 3 hours; when the hour is
at least 21 it rolls to hour 0 of the next calendar day; and the quoted
examples 05:00 → 06:00, 06:00 → 09:00, 22:00 → next-day 00:00 hold. -/
theorem C2_next_forecast_block :
    (∀ t : PyDateTime, t.Valid →
      (next_forecast_block t).hour % 3 = 0 ∧ (next_forecast_block t).hour < 24 ∧
      (next_forecast_block t).minute = 0 ∧ (next_forecast_block t).second = 0 ∧
      (next_forecast_block t).microsecond = 0 ∧
      t.toMicros < (next_forecast_block t).toMicros ∧
      (t.hour % 3 = 0 → t.minute = 0 → t.second = 0 → t.microsecond = 0 →
        (next_forecast_block t).toMicros = t.toMicros + 3 * 3600 * 1000000) ∧
      (21 ≤ t.hour →
        (next_forecast_block t).day = t.day + 1 ∧ (next_forecast_block t).hour = 0)) ∧
    next_forecast_block ⟨0, 5, 0, 0, 0⟩ = ⟨0, 6, 0, 0, 0⟩ ∧
    next_forecast_block ⟨0, 6, 0, 0, 0⟩ = ⟨0, 9, 0, 0, 0⟩ ∧
    next_forecast_block ⟨0, 22, 0, 0, 0⟩ = ⟨1, 0, 0, 0, 0⟩ := by
  refine ⟨?_, by decide, by decide, by decide⟩
  rintro t ⟨h24, h60m, h60s, hmic⟩
  have heq : next_forecast_block t =
      if (t.hour / 3 + 1) * 3 < 24 then
        ⟨t.day, (t.hour / 3 + 1) * 3, 0, 0, 0⟩
      else ⟨t.day + 1, 0, 0, 0, 0⟩ := rfl
  rw [heq]
  by_cases h : (t.hour / 3 + 1) * 3 < 24
  · rw [if_pos h]
    dsimp only [PyDateTime.toMicros]
    refine ⟨by omega, h, rfl, rfl, rfl, by push_cast; omega, ?_, ?_⟩
    · intro h1 h2 h3 h4
      push_cast
      omega
    · intro h1
      exact absurd h1 (by omega)
  · rw [if_neg h]
    dsimp only [PyDateTime.toMicros]
    refine ⟨by omega, by omega, rfl, rfl, rfl, by push_cast; omega, ?_,
      fun h1 => ⟨rfl, rfl⟩⟩
    intro h1 h2 h3 h4
    push_cast
    omega

theorem C2_next_forecast_block_witness :
    PyDateTime.Valid ⟨0, 6, 0, 0, 0⟩ ∧
      (PyDateTime.mk 0 6 0 0 0).toMicros <
        (next_forecast_block ⟨0, 6, 0, 0, 0⟩).toMicros ∧
      (next_forecast_block ⟨0, 6, 0, 0, 0⟩).toMicros =
        (PyDateTime.mk 0 6 0 0 0).toMicros + 3 * 3600 * 1000000 :=
  ⟨by decide,
   (C2_next_forecast_block.1 ⟨0, 6, 0, 0, 0⟩ (by decide)).2.2.2.2.2.1,
   (C2_next_forecast_block.1 ⟨0, 6, 0, 0, 0⟩ (by decide)).2.2.2.2.2.2.1
     (by decide) rfl rfl rfl⟩

/-- C3 as stated is false for field-level parse errors: a feed whose first
record has an uncoercible `time_tag` (and a second, valid record) produces
no warning and a non-empty result — the bad row is silently dropped rather
than the whole feed being emptied with a warning. -/
theorem C3_counterexample :
    (fetch_kp_index Zone.UTC
        (.ok [⟨none, some 5⟩, ⟨some 0, some 5⟩])).1 = none ∧
    (fetch_kp_index Zone.UTC
        (.ok [⟨none, some 5⟩, ⟨some 0, some 5⟩])).2 = [⟨⟨0, 0⟩, 5⟩] :=
  ⟨rfl, rfl⟩

/-- C3 (amended): none of the three normalizers can raise (each is a total
function of its input); on a whole-feed failure — transport error, malformed
JSON, or a structural reshaping error — it emits a warning naming the
failing feed and returns an empty sequence, while a field-level parse
failure only drops the affected row; and each of the three results of
`fetch_all` depends only on its own feed's input, so a failure in one feed
leaves the other two normalizers' results unchanged. -/
theorem C3_soft_failure :
    (∀ tz e, fetch_kp_index tz (.error e) =
      (some ("Kp index fetch failed: " ++ e), [])) ∧
    (∀ tz e, fetch_alerts tz (.error e) =
      (some ("Alerts fetch failed: " ++ e), [])) ∧
    (∀ tz e, fetch_geomag_activity tz (.error e) =
      (some ("Storm data fetch failed: " ++ e), [])) ∧
    (∀ tz i1 i2 i3 j2 j3, (fetch_all tz i1 i2 i3).1 = (fetch_all tz i1 j2 j3).1) ∧
    (∀ tz i1 i2 i3 j1 j3, (fetch_all tz i1 i2 i3).2.1 = (fetch_all tz j1 i2 j3).2.1) ∧
    (∀ tz i1 i2 i3 j1 j2, (fetch_all tz i1 i2 i3).2.2 = (fetch_all tz j1 j2 i3).2.2) :=
  ⟨fun _ _ => rfl, fun _ _ => rfl, fun _ _ => rfl,
   fun _ _ _ _ _ _ => rfl, fun _ _ _ _ _ _ => rfl, fun _ _ _ _ _ _ => rfl⟩

/-- Python `int()` agrees with the floor on the rationals in `[n, n + 1)` for
a nonnegative integer `n`. -/
theorem pyInt_eq_of_Icc (n : ℤ) (k : ℚ) (h0 : 0 ≤ n) (h1 : (n : ℚ) ≤ k)
    (h2 : k < (n : ℚ) + 1) : pyInt k = n := by
  have hk : (0 : ℚ) ≤ k := le_trans (by exact_mod_cast h0) h1
  rw [pyInt, if_pos hk]
  rw [Int.floor_eq_iff]
  exact ⟨h1, h2⟩

/-- C4: the floor-based annotation formula yields "G1" on kp ∈ [5,6), "G2" on
[6,7), "G3" on [7,8), "G4" on [8,9) and "G5" on [9,10). -/
theorem C4_g_level (k : ℚ) :
    (5 ≤ k → k < 6 → g_level k = "G1") ∧
    (6 ≤ k → k < 7 → g_level k = "G2") ∧
    (7 ≤ k → k < 8 → g_level k = "G3") ∧
    (8 ≤ k → k < 9 → g_level k = "G4") ∧
    (9 ≤ k → k < 10 → g_level k = "G5") := by
  refine ⟨fun ha hb => ?_, fun ha hb => ?_, fun ha hb => ?_, fun ha hb => ?_,
    fun ha hb => ?_⟩ <;>
    rw [g_level]
  · rw [pyInt_eq_of_Icc 5 k (by norm_num) (by exact_mod_cast ha) (by push_cast; linarith)]
    decide
  · rw [pyInt_eq_of_Icc 6 k (by norm_num) (by exact_mod_cast ha) (by push_cast; linarith)]
    decide
  · rw [pyInt_eq_of_Icc 7 k (by norm_num) (by exact_mod_cast ha) (by push_cast; linarith)]
    decide
  · rw [pyInt_eq_of_Icc 8 k (by norm_num) (by exact_mod_cast ha) (by push_cast; linarith)]
    decide
  · rw [pyInt_eq_of_Icc 9 k (by norm_num) (by exact_mod_cast ha) (by push_cast; linarith)]
    decide

theorem C4_g_level_witness :
    g_level (11/2) = "G1" ∧ g_level (69/10) = "G2" ∧ g_level 7 = "G3" ∧
      g_level (17/2) = "G4" ∧ g_level (99/10) = "G5" :=
  ⟨(C4_g_level (11/2)).1 (by norm_num) (by norm_num),
   (C4_g_level (69/10)).2.1 (by norm_num) (by norm_num),
   (C4_g_level 7).2.2.1 (by norm_num) (by norm_num),
   (C4_g_level (17/2)).2.2.2.1 (by norm_num) (by norm_num),
   (C4_g_level (99/10)).2.2.2.2 (by norm_num) (by norm_num)⟩

/-- Insertion preserves the elements of the list. -/
theorem mem_insertDescBy {α : Type} (key : α → ℤ) (a x : α) (l : List α) :
    x ∈ insertDescBy key a l ↔ x = a ∨ x ∈ l := by
  induction l with
  | nil => simp [insertDescBy]
  | cons b l ih =>
      rw [insertDescBy]
      split_ifs with hba
      · simp
      · simp only [List.mem_cons, ih]
        tauto

/-- Sorting preserves the elements of the list. -/
theorem mem_sortDescBy {α : Type} (key : α → ℤ) (x : α) (l : List α) :
    x ∈ sortDescBy key l ↔ x ∈ l := by
  induction l with
  | nil => simp [sortDescBy]
  | cons a l ih =>
      rw [sortDescBy]
      simp only [mem_insertDescBy, ih, List.mem_cons]

/-- Inserting into a descending-sorted list keeps it descending-sorted. -/
theorem pairwise_insertDescBy {α : Type} (key : α → ℤ) (a : α) (l : List α)
    (h : l.Pairwise fun x y => key y ≤ key x) :
    (insertDescBy key a l).Pairwise fun x y => key y ≤ key x := by
  induction l with
  | nil => simp [insertDescBy]
  | cons b l ih =>
      rw [List.pairwise_cons] at h
      obtain ⟨hb, hl⟩ := h
      rw [insertDescBy]
      split_ifs with hba
      · refine List.Pairwise.cons ?_ (List.Pairwise.cons hb hl)
        intro y hy
        rcases List.mem_cons.mp hy with rfl | hy
        · exact hba
        · exact le_trans (hb y hy) hba
      · refine List.Pairwise.cons ?_ (ih hl)
        intro y hy
        rcases (mem_insertDescBy key a y l).mp hy with rfl | hy
        · exact le_of_not_le hba
        · exact hb y hy

/-- The descending sort is descending-sorted. -/
theorem pairwise_sortDescBy {α : Type} (key : α → ℤ) (l : List α) :
    (sortDescBy key l).Pairwise fun x y => key y ≤ key x := by
  induction l with
  | nil => simp [sortDescBy]
  | cons a l ih => exact pairwise_insertDescBy key a _ ih

/-- C5: every storm row in the normalizer's output has Kp ≥ 5; concretely, a
feed holding a parsed Kp = 4.9 row, a Kp = 5.0 row, and two rows with one
uncoercible field yields exactly the Kp = 5.0 row, annotated "G1". -/
theorem C5_storm_filter :
    (∀ tz input r, r ∈ (fetch_geomag_activity tz input).2 → 5 ≤ r.Kp) ∧
    (fetch_geomag_activity Zone.UTC
        (.ok [⟨some 0, some (49/10)⟩, ⟨some 60, some 5⟩,
              ⟨none, some 9⟩, ⟨some 120, none⟩])).2 =
      [⟨⟨60, 0⟩, 5, "G1"⟩] := by
  constructor
  · intro tz input r hr
    match input with
    | .error e => simp [fetch_geomag_activity] at hr
    | .ok data =>
        rw [fetch_geomag_activity] at hr
        simp only [mem_sortDescBy, List.mem_map, List.mem_filter] at hr
        obtain ⟨p, ⟨_, hp5⟩, rfl⟩ := hr
        exact of_decide_eq_true hp5
  · have hd1 : decide ((5 : ℚ) ≤ 49/10) = false := decide_eq_false (by norm_num)
    have hd2 : decide ((5 : ℚ) ≤ 5) = true := decide_eq_true (le_refl 5)
    have hg : g_level 5 = "G1" := by
      rw [g_level, pyInt, if_pos (by norm_num : (0 : ℚ) ≤ 5)]
      norm_num
      decide
    simp [fetch_geomag_activity, List.filterMap_cons, List.filter_cons, hd1, hd2,
      sortDescBy, insertDescBy, tz_convert, tz_localize_utc, hg, Zone.offsetMinutes]

theorem C5_storm_filter_witness :
    (5 : ℚ) ≤ (StormRow.mk ⟨60, 0⟩ 5 "G1").Kp :=
  C5_storm_filter.1 Zone.UTC
    (.ok [⟨some 0, some (49/10)⟩, ⟨some 60, some 5⟩,
          ⟨none, some 9⟩, ⟨some 120, none⟩])
    ⟨⟨60, 0⟩, 5, "G1"⟩
    (by rw [C5_storm_filter.2]; exact List.mem_singleton.mpr rfl)

/-- C8: the storm normalizer's output is ordered most-recent-first — for
every pair of rows in output order, the earlier row's time_tag is at least
the later row's. -/
theorem C8_storm_sorted (tz : Zone) (input : FetchInput (List RawStormRecord)) :
    ((fetch_geomag_activity tz input).2).Pairwise
      fun a b => b.time_tag.utc ≤ a.time_tag.utc := by
  match input with
  | .error e => simp [fetch_geomag_activity]
  | .ok data => exact pairwise_sortDescBy _ _

/-- Counting output rows by issue instant matches counting parseable feed
records by that instant: the normalizer drops nothing but unparseable rows
and never deduplicates. -/
theorem countP_filterMap_alerts (tz : Zone) (data : List RawAlertRecord) (t : ℤ) :
    ((data.filterMap fun r =>
        match r.issue_datetime with
        | some u =>
            some (AlertRow.mk (tz_convert tz (tz_localize_utc u)) r.product_id r.message)
        | none => none).countP fun r => decide (r.issue_time.utc = t)) =
      data.countP fun r => decide (r.issue_datetime = some t) := by
  induction data with
  | nil => rfl
  | cons r rs ih =>
      rw [List.filterMap_cons]
      cases hr : r.issue_datetime with
      | none =>
          rw [List.countP_cons]
          simp [hr, ih]
      | some u =>
          rw [List.countP_cons, List.countP_cons, ih]
          congr 1
          by_cases hu : u = t
          · subst hu
            simp [tz_convert, tz_localize_utc, hr]
          · simp [tz_convert, tz_localize_utc, hr, hu]

/-- C9: the alerts normalizer performs no deduplication — for every issue
instant, the output holds exactly as many rows with that issue time as the
feed has parseable records with it; the display selection is the first 5 of
the descending sort (at most 5 rows, descending by issue time, a sublist of
the sorted rows); and on a concrete feed of six alerts sharing issue times
among the most recent, all duplicates are retained up to the cap. -/
theorem C9_alerts_dedup_top5 :
    (∀ tz data t,
      ((fetch_alerts tz (.ok data)).2.countP fun r => decide (r.issue_time.utc = t)) =
        data.countP fun r => decide (r.issue_datetime = some t)) ∧
    (∀ rows : List AlertRow,
      (alerts_display rows).length ≤ 5 ∧
      (alerts_display rows).Pairwise (fun a b => b.issue_time.utc ≤ a.issue_time.utc) ∧
      (alerts_display rows).Sublist
        (sortDescBy (fun a => a.issue_time.utc) rows)) ∧
    alerts_display
        [⟨⟨9, 0⟩, "A", "m1"⟩, ⟨⟨9, 0⟩, "B", "m2"⟩, ⟨⟨9, 0⟩, "C", "m3"⟩,
         ⟨⟨8, 0⟩, "D", "m4"⟩, ⟨⟨8, 0⟩, "E", "m5"⟩, ⟨⟨7, 0⟩, "F", "m6"⟩] =
      [⟨⟨9, 0⟩, "A", "m1"⟩, ⟨⟨9, 0⟩, "B", "m2"⟩, ⟨⟨9, 0⟩, "C", "m3"⟩,
       ⟨⟨8, 0⟩, "D", "m4"⟩, ⟨⟨8, 0⟩, "E", "m5"⟩] := by
  refine ⟨?_, ?_, by decide⟩
  · intro tz data t
    rw [fetch_alerts]
    exact countP_filterMap_alerts tz data t
  · intro rows
    refine ⟨?_, ?_, List.take_sublist 5 _⟩
    · rw [alerts_display, List.length_take]
      exact min_le_left _ _
    · exact List.Pairwise.sublist (List.take_sublist 5 _) (pairwise_sortDescBy _ rows)

/-- Every nonempty list of rationals has a greatest element. -/
theorem exists_max_mem (l : List ℚ) (h : l ≠ []) : ∃ M ∈ l, ∀ x ∈ l, x ≤ M := by
  induction l with
  | nil => exact absurd rfl h
  | cons a l ih =>
      cases l with
      | nil => exact ⟨a, by simp, by simp⟩
      | cons b t =>
          obtain ⟨M, hM, hall⟩ := ih (by simp)
          by_cases ham : a ≤ M
          · refine ⟨M, List.mem_cons_of_mem a hM, ?_⟩
            intro x hx
            rcases List.mem_cons.mp hx with rfl | hx
            · exact ham
            · exact hall x hx
          · refine ⟨a, List.mem_cons_self a _, ?_⟩
            intro x hx
            rcases List.mem_cons.mp hx with rfl | hx
            · exact le_refl x
            · exact le_trans (hall x hx) (le_of_not_le ham)

/-- Every nonempty list of rationals has a least element. -/
theorem exists_min_mem (l : List ℚ) (h : l ≠ []) : ∃ m ∈ l, ∀ x ∈ l, m ≤ x := by
  induction l with
  | nil => exact absurd rfl h
  | cons a l ih =>
      cases l with
      | nil => exact ⟨a, by simp, by simp⟩
      | cons b t =>
          obtain ⟨m, hm, hall⟩ := ih (by simp)
          by_cases ham : m ≤ a
          · refine ⟨m, List.mem_cons_of_mem a hm, ?_⟩
            intro x hx
            rcases List.mem_cons.mp hx with rfl | hx
            · exact ham
            · exact hall x hx
          · refine ⟨a, List.mem_cons_self a _, ?_⟩
            intro x hx
            rcases List.mem_cons.mp hx with rfl | hx
            · exact le_refl x
            · exact le_trans (le_of_not_le ham) (hall x hx)

/-- A list sum is at most its length times an upper bound of its elements. -/
theorem sum_le_length_mul (l : List ℚ) (M : ℚ) (h : ∀ x ∈ l, x ≤ M) :
    l.sum ≤ (l.length : ℚ) * M := by
  induction l with
  | nil => simp
  | cons a l ih =>
      rw [List.sum_cons, List.length_cons]
      have ha := h a (List.mem_cons_self a l)
      have hl := ih fun x hx => h x (List.mem_cons_of_mem a hx)
      push_cast
      nlinarith

/-- A list sum is at least its length times a lower bound of its elements. -/
theorem length_mul_le_sum (l : List ℚ) (m : ℚ) (h : ∀ x ∈ l, m ≤ x) :
    (l.length : ℚ) * m ≤ l.sum := by
  induction l with
  | nil => simp
  | cons a l ih =>
      rw [List.sum_cons, List.length_cons]
      have ha := h a (List.mem_cons_self a l)
      have hl := ih fun x hx => h x (List.mem_cons_of_mem a hx)
      push_cast
      nlinarith

/-- The arithmetic mean of a nonempty list does not exceed some element. -/
theorem mean_le_max (l : List ℚ) (h : l ≠ []) :
    ∃ M ∈ l, l.sum / (l.length : ℚ) ≤ M := by
  obtain ⟨M, hM, hall⟩ := exists_max_mem l h
  refine ⟨M, hM, ?_⟩
  have hlen : (0 : ℚ) < (l.length : ℚ) := by
    exact_mod_cast List.length_pos.mpr h
  rw [div_le_iff₀ hlen]
  calc l.sum ≤ (l.length : ℚ) * M := sum_le_length_mul l M hall
    _ = M * (l.length : ℚ) := mul_comm _ _

/-- The arithmetic mean of a nonempty list is at least some element. -/
theorem min_le_mean (l : List ℚ) (h : l ≠ []) :
    ∃ m ∈ l, m ≤ l.sum / (l.length : ℚ) := by
  obtain ⟨m, hm, hall⟩ := exists_min_mem l h
  refine ⟨m, hm, ?_⟩
  have hlen : (0 : ℚ) < (l.length : ℚ) := by
    exact_mod_cast List.length_pos.mpr h
  rw [le_div_iff₀ hlen]
  calc m * (l.length : ℚ) = (l.length : ℚ) * m := mul_comm _ _
    _ ≤ l.sum := length_mul_le_sum l m hall

/-- C6: the 3-hour block view retains at most 8 buckets; it considers only
readings strictly newer than now − 24h; and every bucket whose mean is
defined has a nonempty group of constituent readings, with the mean lying
between the group's minimum and maximum Kp values. -/
theorem C6_kp_hourly :
    (∀ kp_df now, (kp_hourly kp_df now).length ≤ 8) ∧
    (∀ kp_df now r, r ∈ kp_recent kp_df now →
      now.utc - 24 * 3600 < r.time_tag.utc) ∧
    (∀ kp_df now b m, (b, some m) ∈ kp_hourly kp_df now →
      bucketRows (kp_recent kp_df now) b ≠ [] ∧
      (∃ r ∈ bucketRows (kp_recent kp_df now) b, m ≤ r.kp_index) ∧
      (∃ r ∈ bucketRows (kp_recent kp_df now) b, r.kp_index ≤ m)) := by
  refine ⟨?_, ?_, ?_⟩
  · intro kp_df now
    rw [kp_hourly, tailN, List.length_drop]
    omega
  · intro kp_df now r hr
    rw [kp_recent] at hr
    exact of_decide_eq_true (List.mem_filter.mp hr).2
  · intro kp_df now b m hmem
    rw [kp_hourly, tailN] at hmem
    replace hmem := List.mem_of_mem_drop hmem
    rw [resample3hMean] at hmem
    obtain ⟨b', _, heq⟩ := List.mem_map.mp hmem
    obtain ⟨rfl, hmean⟩ := Prod.mk.injEq .. ▸ heq
    rw [bucketMean] at hmean
    by_cases hg : (bucketRows (kp_recent kp_df now) b').isEmpty
    · rw [if_pos hg] at hmean
      exact absurd hmean (by simp)
    · rw [if_neg hg] at hmean
      have hne : bucketRows (kp_recent kp_df now) b' ≠ [] := by
        simpa [List.isEmpty_iff] using hg
      have hmapne : (bucketRows (kp_recent kp_df now) b').map
          (fun r => r.kp_index) ≠ [] := by
        simpa using hne
      have hm : ((bucketRows (kp_recent kp_df now) b').map
          (fun r => r.kp_index)).sum /
            (((bucketRows (kp_recent kp_df now) b').length : ℕ) : ℚ) = m :=
        Option.some.inj hmean
      refine ⟨hne, ?_, ?_⟩
      · obtain ⟨M, hM, hle⟩ := mean_le_max _ hmapne
        obtain ⟨r, hrg, hrM⟩ := List.mem_map.mp hM
        refine ⟨r, hrg, ?_⟩
        rw [← hm, hrM]
        simpa [List.length_map] using hle
      · obtain ⟨x, hx, hle⟩ := min_le_mean _ hmapne
        obtain ⟨r, hrg, hrx⟩ := List.mem_map.mp hx
        refine ⟨r, hrg, ?_⟩
        rw [← hm, hrx]
        simpa [List.length_map] using hle

theorem C6_kp_hourly_witness :
    bucketRows (kp_recent [⟨⟨0, 0⟩, 4⟩] ⟨0, 0⟩) 0 ≠ [] ∧
      (∃ r ∈ bucketRows (kp_recent [⟨⟨0, 0⟩, 4⟩] ⟨0, 0⟩) 0, (4 : ℚ) ≤ r.kp_index) ∧
      (∃ r ∈ bucketRows (kp_recent [⟨⟨0, 0⟩, 4⟩] ⟨0, 0⟩) 0, r.kp_index ≤ (4 : ℚ)) :=
  C6_kp_hourly.2.2 [⟨⟨0, 0⟩, 4⟩] ⟨0, 0⟩ 0 4 (by
    have hb : bucketMean (kp_recent [⟨⟨0, 0⟩, 4⟩] ⟨0, 0⟩) 0 = some 4 := by
      rw [bucketMean]
      norm_num [bucketRows, kp_recent, binStart, List.filter_cons]
    show ((0 : ℤ), some (4 : ℚ)) ∈ kp_hourly [⟨⟨0, 0⟩, 4⟩] ⟨0, 0⟩
    rw [← hb]
    exact List.Mem.head _)

/-- C7: every row surviving normalization carries a timezone-aware timestamp
whose offset is the selected display zone's, and converting it back to UTC
reproduces exactly the parsed UTC source instant of some feed record — for
each of the three feeds. -/
theorem C7_round_trip :
    (∀ tz (input : FetchInput (List RawKpRecord)) r,
      r ∈ (fetch_kp_index tz input).2 →
      r.time_tag.offsetMinutes = tz.offsetMinutes ∧
      ∃ data raw, input = .ok data ∧ raw ∈ data ∧
        raw.time_tag = some r.time_tag.toUTC) ∧
    (∀ tz (input : FetchInput (List RawAlertRecord)) r,
      r ∈ (fetch_alerts tz input).2 →
      r.issue_time.offsetMinutes = tz.offsetMinutes ∧
      ∃ data raw, input = .ok data ∧ raw ∈ data ∧
        raw.issue_datetime = some r.issue_time.toUTC) ∧
    (∀ tz (input : FetchInput (List RawStormRecord)) r,
      r ∈ (fetch_geomag_activity tz input).2 →
      r.time_tag.offsetMinutes = tz.offsetMinutes ∧
      ∃ data raw, input = .ok data ∧ raw ∈ data ∧
        raw.time_tag = some r.time_tag.toUTC) := by
  refine ⟨?_, ?_, ?_⟩
  · intro tz input r hr
    match input with
    | .error e => simp [fetch_kp_index] at hr
    | .ok data =>
        rw [fetch_kp_index] at hr
        obtain ⟨raw, hraw, hf⟩ := List.mem_filterMap.mp hr
        match ht : raw.time_tag, hk : raw.kp_index with
        | some t, some k =>
            rw [ht, hk] at hf
            obtain rfl := Option.some.inj hf
            exact ⟨rfl, data, raw, rfl, hraw, ht⟩
        | some t, none => rw [ht, hk] at hf; exact absurd hf (by simp)
        | none, _ => rw [ht] at hf; exact absurd hf (by simp)
  · intro tz input r hr
    match input with
    | .error e => simp [fetch_alerts] at hr
    | .ok data =>
        rw [fetch_alerts] at hr
        obtain ⟨raw, hraw, hf⟩ := List.mem_filterMap.mp hr
        match ht : raw.issue_datetime with
        | some t =>
            rw [ht] at hf
            obtain rfl := Option.some.inj hf
            exact ⟨rfl, data, raw, rfl, hraw, ht⟩
        | none => rw [ht] at hf; exact absurd hf (by simp)
  · intro tz input r hr
    match input with
    | .error e => simp [fetch_geomag_activity] at hr
    | .ok data =>
        rw [fetch_geomag_activity] at hr
        simp only [mem_sortDescBy, List.mem_map, List.mem_filter] at hr
        obtain ⟨p, ⟨hp, _⟩, rfl⟩ := hr
        obtain ⟨raw, hraw, hf⟩ := List.mem_filterMap.mp hp
        match ht : raw.time_tag, hk : raw.Kp with
        | some t, some k =>
            rw [ht, hk] at hf
            obtain rfl := Option.some.inj hf
            exact ⟨rfl, data, raw, rfl, hraw, ht⟩
        | some t, none => rw [ht, hk] at hf; exact absurd hf (by simp)
        | none, _ => rw [ht] at hf; exact absurd hf (by simp)

theorem C7_round_trip_witness :
    (KpRow.mk ⟨7, 330⟩ 1).time_tag.offsetMinutes = Zone.IST.offsetMinutes ∧
      ∃ data raw,
        (FetchInput.ok [RawKpRecord.mk (some 7) (some 1)] :
            FetchInput (List RawKpRecord)) = .ok data ∧
        raw ∈ data ∧ raw.time_tag = some (KpRow.mk ⟨7, 330⟩ 1).time_tag.toUTC :=
  C7_round_trip.1 Zone.IST (.ok [⟨some 7, some 1⟩]) ⟨⟨7, 330⟩, 1⟩
    (List.Mem.head _)

end Geomag
